import Mathlib

/-!
Verification of the per-replica consensus state core of the kudu
repository (`src/kudu/consensus/raft_consensus_state.cc`) and the
transaction participant op state machine
(`src/kudu/tablet/ops/participant_op.cc`), as a shallow embedding.

External collaborators (the ConsensusMetadata flush, the OpId waiter
set, the thread pool, the Txn mutators) are modelled by explicit state
and by result parameters representing the environment's outcome of a
fallible call. Fatal assertions (CHECK/DCHECK) in the source are
modelled as hypotheses of the theorems that rely on them.
-/

namespace Kudu

/-- An operation identifier: a `(term, index)` pair, ordered
lexicographically (spec §3). -/
structure OpId where
  term : Nat
  index : Nat
deriving DecidableEq, Repr

/-- `OpIdCompare` from kudu log_util (declared outside src/): three-way
lexicographic comparison on `(term, index)`, negative when `a < b`,
zero when equal, positive when `a > b`. -/
def OpIdCompare (a b : OpId) : Int :=
  if a.term < b.term then -1
  else if b.term < a.term then 1
  else if a.index < b.index then -1
  else if b.index < a.index then 1
  else 0

/-- Peer role (metadata::QuorumPeerPB::Role). -/
inductive Role
  | LEADER
  | FOLLOWER
  | CANDIDATE
  | LEARNER
  | NON_PARTICIPANT
deriving DecidableEq, Repr

/-- One peer entry of a quorum: `{permanent_uuid, role}`. -/
structure QuorumPeerPB where
  permanent_uuid : String
  role : Role
deriving DecidableEq, Repr

/-- A quorum: an ordered list of peers plus a config sequence number. -/
structure QuorumPB where
  peers : List QuorumPeerPB
  seqno : Int
deriving DecidableEq, Repr

/-- Insertion for the model of `std::tr1::unordered_set<string>`: what
matters to every claim is the set of members, so the set is a
duplicate-free list. -/
def setInsert (s : List String) (u : String) : List String :=
  if u ∈ s then s else s ++ [u]

/-- The immutable quorum snapshot built by `QuorumState::Build`. -/
structure QuorumState where
  role : Role
  leader_uuid : String
  voting_peers : List String
  majority_size : Nat
  quorum_size : Nat
  config_seqno : Int
deriving DecidableEq, Repr

/-- One iteration of the peer walk in `QuorumState::Build`: remember
the role of the peer matching `self`, accumulate voting peers (LEADER
or FOLLOWER), remember the leader uuid. -/
def buildStep (self : String) (acc : Role × List String × String)
    (p : QuorumPeerPB) : Role × List String × String :=
  let r := if p.permanent_uuid = self then p.role else acc.1
  let v := if p.role = Role.LEADER ∨ p.role = Role.FOLLOWER then
             setInsert acc.2.1 p.permanent_uuid
           else acc.2.1
  let l := if p.role = Role.LEADER then p.permanent_uuid else acc.2.2
  (r, v, l)

/-- `QuorumState::Build(quorum, self_uuid)`: walk the peers once, then
compute `majority_size = |voting_peers|/2 + 1`,
`quorum_size = |peers|`, `config_seqno = quorum.seqno`. -/
def QuorumState.Build (quorum : QuorumPB) (self_uuid : String) : QuorumState :=
  let acc := quorum.peers.foldl (buildStep self_uuid)
               (Role.NON_PARTICIPANT, [], "")
  { role := acc.1
    leader_uuid := acc.2.2
    voting_peers := acc.2.1
    majority_size := acc.2.1.length / 2 + 1
    quorum_size := quorum.peers.length
    config_seqno := quorum.seqno }

/-- Outcome of a fallible call (`kudu::Status`), collapsed to the
error kinds the core distinguishes plus a generic I/O error standing
for a failed metadata flush. -/
inductive Status
  | ok
  | illegalState
  | serviceUnavailable
  | invalidArgument
  | alreadyPresent
  | ioError
deriving DecidableEq, Repr

/-- The durable consensus-metadata record:
`{current_term, voted_for?, committed_quorum}`. -/
structure ConsensusMetadataPB where
  current_term : Nat
  voted_for : Option String
  committed_quorum : QuorumPB
deriving DecidableEq, Repr

/-- Modelled from the spec: ConsensusMetadata (a collaborator declared
outside src/, spec §6): an in-memory protobuf `pb` plus the last
durably flushed copy `durable`; `Flush` persists `pb` atomically when
the environment's outcome `res` is ok and otherwise fails leaving the
durable copy unchanged. -/
structure ConsensusMetadata where
  pb : ConsensusMetadataPB
  durable : ConsensusMetadataPB
deriving DecidableEq, Repr

/-- `ConsensusMetadata::Flush()`; `res` is the environment-chosen
outcome of the disk write. -/
def ConsensusMetadata.Flush (c : ConsensusMetadata) (res : Status) :
    Status × ConsensusMetadata :=
  if res = Status.ok then (Status.ok, { c with durable := c.pb }) else (res, c)

/-- The replica lifecycle state (`ReplicaState::State`). -/
inductive RState
  | kInitialized
  | kRunning
  | kChangingConfig
  | kShuttingDown
  | kShutDown
deriving DecidableEq, Repr

/-- Consensus operation type carried by a replicate message. -/
inductive OperationType
  | NO_OP
  | WRITE_OP
  | CHANGE_CONFIG_OP
  | PARTICIPANT_OP
deriving DecidableEq, Repr

/-- A pending consensus round as the ReplicaState sees it: its id, the
op type of its replicate message, whether it carries a replica commit
continuation, and the environment-chosen outcomes of invoking the
continuation (`ConsensusCommitted()`) or of submitting its callback
runnable to the pool. -/
structure ConsensusRound where
  id : OpId
  op_type : OperationType
  hasCommitContinuation : Bool
  continuationResult : Status
  submitResult : Status
deriving DecidableEq, Repr

/-- Observable calls the ReplicaState makes on its collaborators. -/
inductive Event
  | consensusCommitted (id : OpId)
  | submittedRunnable (id : OpId)
  | commitWatcherFired (id : OpId) (cb : Nat)
  | replicateWatcherFired (id : OpId) (cb : Nat)
deriving DecidableEq, Repr

/-- The central replica state container. `pending_txns` is the ordered
map `OpIdToRoundMap` kept as a list sorted ascending by `OpIdCompare`;
`in_flight_commits` is the unordered id set; the two watcher sets
(kudu `OpIdWaiterSet`, declared outside src/) are callback handles
keyed by OpId; `events` is the trace of collaborator calls. -/
structure ReplicaState where
  state : RState
  peer_uuid : String
  cmeta : ConsensusMetadata
  pending_quorum : Option QuorumPB
  active_quorum_state : QuorumState
  next_index : Nat
  replicated_op_id : OpId
  received_op_id : OpId
  last_triggered_apply : OpId
  pending_txns : List (OpId × ConsensusRound)
  in_flight_commits : List OpId
  in_flight_applies_latch : Nat
  replicate_watchers : List (OpId × Nat)
  commit_watchers : List (OpId × Nat)
  events : List Event
deriving DecidableEq, Repr

def ReplicaState.GetCurrentTermUnlocked (rs : ReplicaState) : Nat :=
  rs.cmeta.pb.current_term

def ReplicaState.HasVotedCurrentTermUnlocked (rs : ReplicaState) : Bool :=
  rs.cmeta.pb.voted_for.isSome

/-- Flush the consensus metadata, threading the environment-chosen
outcome `res` through the replica state. -/
def ReplicaState.flushCmeta (rs : ReplicaState) (res : Status) :
    Status × ReplicaState :=
  let p := rs.cmeta.Flush res
  (p.1, { rs with cmeta := p.2 })

/-- `ReplicaState::IncrementTermUnlocked`: bump the in-memory term,
clear the vote, then flush (`RETURN_NOT_OK`). -/
def ReplicaState.IncrementTermUnlocked (rs : ReplicaState) (flushRes : Status) :
    Status × ReplicaState :=
  let rs1 := { rs with cmeta := { rs.cmeta with pb :=
    { rs.cmeta.pb with
        current_term := rs.cmeta.pb.current_term + 1
        voted_for := none } } }
  let p := rs1.flushCmeta flushRes
  if p.1 = Status.ok then (Status.ok, p.2) else (p.1, p.2)

/-- `ReplicaState::SetCurrentTermUnlocked`: reject a lower term with
IllegalState; otherwise set the in-memory term, clear the vote, then
flush (`RETURN_NOT_OK`). -/
def ReplicaState.SetCurrentTermUnlocked (rs : ReplicaState) (new_term : Nat)
    (flushRes : Status) : Status × ReplicaState :=
  if new_term < rs.GetCurrentTermUnlocked then (Status.illegalState, rs)
  else
    let rs1 := { rs with cmeta := { rs.cmeta with pb :=
      { rs.cmeta.pb with current_term := new_term, voted_for := none } } }
    let p := rs1.flushCmeta flushRes
    if p.1 = Status.ok then (Status.ok, p.2) else (p.1, p.2)

/-- `ReplicaState::SetVotedForCurrentTermUnlocked`: record the vote in
memory, then flush (`RETURN_NOT_OK_PREPEND`). -/
def ReplicaState.SetVotedForCurrentTermUnlocked (rs : ReplicaState)
    (uuid : String) (flushRes : Status) : Status × ReplicaState :=
  let rs1 := { rs with cmeta := { rs.cmeta with pb :=
    { rs.cmeta.pb with voted_for := some uuid } } }
  let p := rs1.flushCmeta flushRes
  if p.1 = Status.ok then (Status.ok, p.2) else (p.1, p.2)

def ReplicaState.ResetActiveQuorumStateUnlocked (rs : ReplicaState)
    (quorum : QuorumPB) : ReplicaState :=
  { rs with active_quorum_state := QuorumState.Build quorum rs.peer_uuid }

/-- `ReplicaState::SetCommittedQuorumUnlocked`: when a quorum change is
pending the source CHECKs byte-equality with `new_quorum` (a fatal
assertion, taken as a hypothesis where relevant) and otherwise rebuilds
the active quorum snapshot; then it copies `new_quorum` into the
in-memory committed quorum, flushes (`RETURN_NOT_OK`), and only on a
successful flush clears the pending slot. -/
def ReplicaState.SetCommittedQuorumUnlocked (rs : ReplicaState)
    (new_quorum : QuorumPB) (flushRes : Status) : Status × ReplicaState :=
  let rs1 := if rs.pending_quorum = none then
      rs.ResetActiveQuorumStateUnlocked new_quorum
    else rs
  let rs2 := { rs1 with cmeta := { rs1.cmeta with pb :=
    { rs1.cmeta.pb with committed_quorum := new_quorum } } }
  let p := rs2.flushCmeta flushRes
  if p.1 = Status.ok then (Status.ok, { p.2 with pending_quorum := none })
  else (p.1, p.2)

/-- `ReplicaState::IncrementConfigSeqNoUnlocked`: bump the committed
quorum's seqno in memory, then flush (`RETURN_NOT_OK`). -/
def ReplicaState.IncrementConfigSeqNoUnlocked (rs : ReplicaState)
    (flushRes : Status) : Status × ReplicaState :=
  let q := rs.cmeta.pb.committed_quorum
  let rs1 := { rs with cmeta := { rs.cmeta with pb :=
    { rs.cmeta.pb with committed_quorum := { q with seqno := q.seqno + 1 } } } }
  let p := rs1.flushCmeta flushRes
  if p.1 = Status.ok then (Status.ok, p.2) else (p.1, p.2)

/-- A durable-term mutation with the environment-chosen flush outcome,
for stating properties of call sequences. -/
inductive TermMutation
  | setTerm (new_term : Nat) (flushRes : Status)
  | incrTerm (flushRes : Status)
deriving DecidableEq, Repr

def applyTermMutation (rs : ReplicaState) : TermMutation → Status × ReplicaState
  | TermMutation.setTerm t f => rs.SetCurrentTermUnlocked t f
  | TermMutation.incrTerm f => rs.IncrementTermUnlocked f

def runTermMutations (rs : ReplicaState) (ms : List TermMutation) : ReplicaState :=
  ms.foldl (fun s m => (applyTermMutation s m).2) rs

/-- Insertion into the ordered `OpIdToRoundMap` (`InsertOrDie`; the
source dies on a duplicate key, taken as a non-membership hypothesis
where relevant). -/
def insertPendingOp : List (OpId × ConsensusRound) → OpId → ConsensusRound →
    List (OpId × ConsensusRound)
  | [], k, v => [(k, v)]
  | e :: rest, k, v =>
      if OpIdCompare k e.1 < 0 then (k, v) :: e :: rest
      else e :: insertPendingOp rest k v

/-- `ReplicaState::AddPendingOperation`: outside kRunning only a
CHANGE_CONFIG_OP is admitted; otherwise the round is inserted into the
pending map at its replicate id. -/
def ReplicaState.AddPendingOperation (rs : ReplicaState) (round : ConsensusRound) :
    Status × ReplicaState :=
  if rs.state ≠ RState.kRunning ∧ round.op_type ≠ OperationType.CHANGE_CONFIG_OP then
    (Status.illegalState, rs)
  else
    (Status.ok, { rs with pending_txns := insertPendingOp rs.pending_txns round.id round })

/-- The outcome of the per-round body of the commit-advance loop:
the continuation result when the round has one, else the pool-submit
result. -/
def roundStepStatus (r : ConsensusRound) : Status :=
  if r.hasCommitContinuation then r.continuationResult else r.submitResult

/-- The collaborator call the per-round body makes. -/
def roundEvent (r : ConsensusRound) : Event :=
  if r.hasCommitContinuation then Event.consensusCommitted r.id
  else Event.submittedRunnable r.id

/-- Body of the commit-advance loop for one round: `InsertOrDie` into
`in_flight_commits`, then either invoke the commit continuation or
submit a callback runnable to the pool (`RETURN_NOT_OK` on each). -/
def markCommitStep (rs : ReplicaState) (r : ConsensusRound) :
    Status × ReplicaState :=
  let rs1 := { rs with in_flight_commits := rs.in_flight_commits ++ [r.id] }
  if r.hasCommitContinuation then
    (r.continuationResult,
     { rs1 with events := rs1.events ++ [Event.consensusCommitted r.id] })
  else
    (r.submitResult,
     { rs1 with events := rs1.events ++ [Event.submittedRunnable r.id] })

/-- The commit-advance loop over the `upper_bound` range, stopping at
the first failing round (`RETURN_NOT_OK`). -/
def markCommitLoop : ReplicaState → List (OpId × ConsensusRound) →
    Status × ReplicaState
  | rs, [] => (Status.ok, rs)
  | rs, e :: rest =>
      let p := markCommitStep rs e.2
      if p.1 = Status.ok then markCommitLoop p.2 rest else (p.1, p.2)

/-- The iterator range `[upper_bound(lo), upper_bound(hi))` of the
ordered pending map: drop the keys ≤ lo, keep the keys ≤ hi. -/
def upperBoundRange (pending : List (OpId × ConsensusRound)) (lo hi : OpId) :
    List (OpId × ConsensusRound) :=
  (pending.dropWhile (fun e => OpIdCompare e.1 lo ≤ 0)).takeWhile
    (fun e => OpIdCompare e.1 hi ≤ 0)

/-- `ReplicaState::MarkConsensusCommittedUpToUnlocked`. -/
def ReplicaState.MarkConsensusCommittedUpToUnlocked (rs : ReplicaState)
    (id : OpId) : Status × ReplicaState :=
  if rs.state = RState.kShuttingDown ∨ rs.state = RState.kShutDown then
    (Status.serviceUnavailable, rs)
  else if rs.state ≠ RState.kRunning then
    (Status.illegalState, rs)
  else if 0 ≤ OpIdCompare rs.last_triggered_apply id then
    (Status.ok, rs)
  else
    let range := upperBoundRange rs.pending_txns rs.last_triggered_apply id
    let p := markCommitLoop rs range
    if p.1 = Status.ok then (Status.ok, { p.2 with last_triggered_apply := id })
    else (p.1, p.2)

/-- Modelled from the spec: `OpIdWaiterSet::MarkFinished` with
`MARK_ONLY_THIS_OP` (kudu log_util, not under src/): fire and remove
exactly the callbacks registered at `op_id`; all other registered
callbacks are untouched. Returns the new set and the fired handles. -/
def markOnlyThisOp (ws : List (OpId × Nat)) (op_id : OpId) :
    List (OpId × Nat) × List Nat :=
  (ws.filter (fun e => ¬ e.1 = op_id),
   (ws.filter (fun e => e.1 = op_id)).map Prod.snd)

/-- Modelled from the spec: `OpIdWaiterSet::MarkFinished` with
`MARK_ALL_OPS_BEFORE` (kudu log_util, not under src/): fire and remove
every callback whose key is ≤ `op_id`. Returns the new set and the
fired entries. -/
def markAllOpsBefore (ws : List (OpId × Nat)) (op_id : OpId) :
    List (OpId × Nat) × List (OpId × Nat) :=
  (ws.filter (fun e => ¬ OpIdCompare e.1 op_id ≤ 0),
   ws.filter (fun e => OpIdCompare e.1 op_id ≤ 0))

/-- `ReplicaState::UpdateLastReplicatedOpIdUnlocked`: unconditionally
copy `op_id` into the replicated watermark and fire the replicate
watchers for all ops ≤ `op_id`. -/
def ReplicaState.UpdateLastReplicatedOpIdUnlocked (rs : ReplicaState)
    (op_id : OpId) : ReplicaState :=
  let m := markAllOpsBefore rs.replicate_watchers op_id
  { rs with
      replicated_op_id := op_id
      replicate_watchers := m.1
      events := rs.events ++
        m.2.map (fun e => Event.replicateWatcherFired e.1 e.2) }

/-- `ReplicaState::UpdateCommittedOpIdUnlocked`: erase the id from
`in_flight_commits` and from `pending_txns` (both erasures are CHECKed
to succeed in the source, taken as membership hypotheses), and fire
the commit watchers for exactly this op. -/
def ReplicaState.UpdateCommittedOpIdUnlocked (rs : ReplicaState)
    (committed_op_id : OpId) : ReplicaState :=
  let m := markOnlyThisOp rs.commit_watchers committed_op_id
  { rs with
      in_flight_commits := rs.in_flight_commits.filter
        (fun i => ¬ i = committed_op_id)
      pending_txns := rs.pending_txns.filter
        (fun e => ¬ e.1 = committed_op_id)
      commit_watchers := m.1
      events := rs.events ++
        m.2.map (Event.commitWatcherFired committed_op_id) }

/-- `ReplicaState::CountDownOutstandingCommitsIfShuttingDown`. -/
def ReplicaState.CountDownOutstandingCommitsIfShuttingDown (rs : ReplicaState) :
    ReplicaState :=
  if rs.state = RState.kShuttingDown then
    { rs with in_flight_applies_latch := rs.in_flight_applies_latch - 1 }
  else rs

/-- Modelled from the spec: `update_committed_op_id(op_id)` (spec
§4.4.5) — the caller of the two functions above is outside src/; per
the spec, when an apply completes the id is removed from both sets,
the commit watchers for exactly this op fire, and in SHUTTING_DOWN the
drain latch is decremented, as one operation. -/
def ReplicaState.UpdateCommittedOpId (rs : ReplicaState) (op_id : OpId) :
    ReplicaState :=
  (rs.UpdateCommittedOpIdUnlocked op_id).CountDownOutstandingCommitsIfShuttingDown

/-- `ReplicaState::NewIdUnlocked`: stamp `(current_term, next_index)`
and post-increment `next_index`. -/
def ReplicaState.NewIdUnlocked (rs : ReplicaState) : OpId × ReplicaState :=
  (⟨rs.GetCurrentTermUnlocked, rs.next_index⟩,
   { rs with next_index := rs.next_index + 1 })

/-- `ReplicaState::CancelPendingOperation`: the source CHECKs
`id.term == current_term` and `next_index == id.index + 1` (taken as
hypotheses); it decrements `next_index` and erases the pending entry
keyed `id`. -/
def ReplicaState.CancelPendingOperation (rs : ReplicaState) (id : OpId) :
    ReplicaState :=
  { rs with
      next_index := id.index
      pending_txns := rs.pending_txns.filter (fun e => ¬ e.1 = id) }

/-- Participant op type (tserver::ParticipantOpPB::ParticipantOpType). -/
inductive ParticipantOpType
  | BEGIN_TXN
  | BEGIN_COMMIT
  | FINALIZE_COMMIT
  | ABORT_TXN
  | UNKNOWN
deriving DecidableEq, Repr

/-- The participant op payload carried by the replicate message. -/
structure ParticipantOpPB where
  txn_id : Int
  op_type : ParticipantOpType
  finalized_commit_timestamp : Nat
deriving DecidableEq, Repr

/-- Mutator invocations recorded on the transaction object. -/
inductive TxnEvent
  | beganTxn (op_id : OpId)
  | beganCommit (op_id : OpId)
  | finalizedCommit (op_id : OpId) (ts : Nat)
  | abortedTxn (op_id : OpId)
deriving DecidableEq, Repr

/-- Modelled from the spec: the transaction object `Txn` (kudu
txn_participant, not under src/; spec §3): it exposes the mutators
`BeginTransaction`, `BeginCommit`, `FinalizeCommit`, `AbortTransaction`
which update transaction metadata only, and an MVCC commit-op slot
(held here as the op's timestamp). The mutator calls are recorded in
`log`. -/
structure Txn where
  commit_op : Option Nat
  log : List TxnEvent
deriving DecidableEq, Repr

def Txn.BeginTransaction (txn : Txn) (op_id : OpId) : Txn :=
  { txn with log := txn.log ++ [TxnEvent.beganTxn op_id] }

def Txn.BeginCommit (txn : Txn) (op_id : OpId) : Txn :=
  { txn with log := txn.log ++ [TxnEvent.beganCommit op_id] }

def Txn.FinalizeCommit (txn : Txn) (op_id : OpId) (ts : Nat) : Txn :=
  { txn with log := txn.log ++ [TxnEvent.finalizedCommit op_id ts] }

def Txn.AbortTransaction (txn : Txn) (op_id : OpId) : Txn :=
  { txn with log := txn.log ++ [TxnEvent.abortedTxn op_id] }

/-- MVCC calls the participant op makes (via the tablet's MVCC
manager and the commit op handle). -/
inductive MvccAction
  | startApplying
  | finishApplying (ts : Nat)
  | abortOp (ts : Nat)
deriving DecidableEq, Repr

/-- The commit message produced by a participant op. -/
structure CommitMsg where
  op_type : OperationType
deriving DecidableEq, Repr

/-- `ParticipantOpState::PerformOp`: dispatch on the op type, invoke
the matching transaction mutator; for FINALIZE_COMMIT finish the
commit MVCC op if the transaction holds one; for ABORT_TXN abort it if
held; produce a PARTICIPANT_OP commit message (unreachable for
UNKNOWN, which returns InvalidArgument first). -/
def ParticipantOpState.PerformOp (op : ParticipantOpPB) (txn : Txn)
    (op_id : OpId) : Status × Txn × List MvccAction × Option CommitMsg :=
  match op.op_type with
  | ParticipantOpType.BEGIN_TXN =>
      (Status.ok, txn.BeginTransaction op_id, [],
       some { op_type := OperationType.PARTICIPANT_OP })
  | ParticipantOpType.BEGIN_COMMIT =>
      (Status.ok, txn.BeginCommit op_id, [],
       some { op_type := OperationType.PARTICIPANT_OP })
  | ParticipantOpType.FINALIZE_COMMIT =>
      let txn1 := txn.FinalizeCommit op_id op.finalized_commit_timestamp
      match txn1.commit_op with
      | some ts =>
          (Status.ok, txn1, [MvccAction.finishApplying ts],
           some { op_type := OperationType.PARTICIPANT_OP })
      | none =>
          (Status.ok, txn1, [],
           some { op_type := OperationType.PARTICIPANT_OP })
  | ParticipantOpType.ABORT_TXN =>
      let txn1 := txn.AbortTransaction op_id
      match txn1.commit_op with
      | some ts =>
          (Status.ok, txn1, [MvccAction.abortOp ts],
           some { op_type := OperationType.PARTICIPANT_OP })
      | none =>
          (Status.ok, txn1, [],
           some { op_type := OperationType.PARTICIPANT_OP })
  | ParticipantOpType.UNKNOWN => (Status.invalidArgument, txn, [], none)

/-- `ParticipantOp::Apply`: StartApplying on the tablet's MVCC
manager, `CHECK_OK(PerformOp(...))`, and for BEGIN_COMMIT hand the op
state's MVCC op into the transaction's commit-op slot. Returns OK. -/
def ParticipantOp.Apply (op : ParticipantOpPB) (txn : Txn) (op_id : OpId)
    (begin_commit_mvcc_op : Option Nat) :
    Status × Txn × List MvccAction × Option CommitMsg :=
  match ParticipantOpState.PerformOp op txn op_id with
  | (_, txn1, actions, msg) =>
      let txn2 := if op.op_type = ParticipantOpType.BEGIN_COMMIT then
          { txn1 with commit_op := begin_commit_mvcc_op }
        else txn1
      (Status.ok, txn2, MvccAction.startApplying :: actions, msg)

/-- Pending-map well-formedness: the `OpIdToRoundMap` is sorted
strictly ascending by `OpIdCompare` (the `std::map` key order). -/
abbrev PendingSorted (l : List (OpId × ConsensusRound)) : Prop :=
  l.Pairwise (fun a b => OpIdCompare a.1 b.1 < 0)

/-- A concrete replica state used to instantiate witnesses: running,
term 5 with a recorded vote, watermarks at (5,9), next index 10. -/
def sampleReplicaState : ReplicaState where
  state := RState.kRunning
  peer_uuid := "me"
  cmeta := { pb := { current_term := 5, voted_for := some "a",
                     committed_quorum := { peers := [], seqno := 1 } },
             durable := { current_term := 5, voted_for := some "a",
                          committed_quorum := { peers := [], seqno := 1 } } }
  pending_quorum := none
  active_quorum_state := QuorumState.Build { peers := [], seqno := 1 } "me"
  next_index := 10
  replicated_op_id := ⟨5, 9⟩
  received_op_id := ⟨5, 9⟩
  last_triggered_apply := ⟨5, 9⟩
  pending_txns := []
  in_flight_commits := []
  in_flight_applies_latch := 1
  replicate_watchers := []
  commit_watchers := []
  events := []

/-- A concrete replica state in SHUTTING_DOWN with one op in flight
and pending and two commit watchers, used to instantiate witnesses. -/
def sampleShutdownState : ReplicaState :=
  { sampleReplicaState with
      state := RState.kShuttingDown
      in_flight_commits := [⟨5, 9⟩]
      pending_txns := [(⟨5, 9⟩, ConsensusRound.mk ⟨5, 9⟩
        OperationType.WRITE_OP true Status.ok Status.ok)]
      commit_watchers := [(⟨5, 9⟩, 1), (⟨5, 11⟩, 2)] }

/-- A concrete running replica state with two pending rounds above the
commit watermark, used to instantiate witnesses. -/
def samplePendingState : ReplicaState :=
  { sampleReplicaState with
      pending_txns := [(⟨5, 10⟩, ConsensusRound.mk ⟨5, 10⟩
        OperationType.WRITE_OP true Status.ok Status.ok),
        (⟨5, 11⟩, ConsensusRound.mk ⟨5, 11⟩
        OperationType.WRITE_OP false Status.ok Status.ok)] }

/-- A concrete running replica state with one pending round whose
commit continuation fails, used to instantiate witnesses. -/
def sampleFailState : ReplicaState :=
  { sampleReplicaState with
      pending_txns := [(⟨5, 10⟩, ConsensusRound.mk ⟨5, 10⟩
        OperationType.WRITE_OP true Status.ioError Status.ok)] }

/-! ## Theorems -/

theorem OpIdCompare_le_iff (a b : OpId) :
    OpIdCompare a b ≤ 0 ↔
      (a.term < b.term ∨ (a.term = b.term ∧ a.index ≤ b.index)) := by
  unfold OpIdCompare
  split <;> [skip; split] <;> [omega; omega; skip]
  split <;> [omega; split <;> omega]

theorem OpIdCompare_lt_iff (a b : OpId) :
    OpIdCompare a b < 0 ↔
      (a.term < b.term ∨ (a.term = b.term ∧ a.index < b.index)) := by
  unfold OpIdCompare
  split <;> [skip; split] <;> [omega; omega; skip]
  split <;> [omega; split <;> omega]

theorem OpIdCompare_lt_of_lt_of_le {a b c : OpId}
    (hab : OpIdCompare a b < 0) (hbc : OpIdCompare b c ≤ 0) :
    OpIdCompare a c < 0 := by
  rw [OpIdCompare_lt_iff] at hab ⊢
  rw [OpIdCompare_le_iff] at hbc
  omega

theorem OpIdCompare_le_of_le_of_le {a b c : OpId}
    (hab : OpIdCompare a b ≤ 0) (hbc : OpIdCompare b c ≤ 0) :
    OpIdCompare a c ≤ 0 := by
  rw [OpIdCompare_le_iff] at hab hbc ⊢
  omega

theorem OpIdCompare_not_le_of_lt {a b : OpId}
    (h : OpIdCompare b a < 0) : ¬ OpIdCompare a b ≤ 0 := by
  rw [OpIdCompare_lt_iff] at h
  rw [OpIdCompare_le_iff]
  omega

theorem setInsert_mem (s : List String) (u x : String) :
    x ∈ setInsert s u ↔ (x ∈ s ∨ x = u) := by
  unfold setInsert
  split
  · next h =>
    constructor
    · exact Or.inl
    · rintro (hx | hx)
      · exact hx
      · exact hx ▸ h
  · simp [List.mem_append]

/-- Characterisation of the voting-peer accumulator over the peer walk. -/
theorem build_voting_mem (self : String) (peers : List QuorumPeerPB)
    (acc : Role × List String × String) (x : String) :
    x ∈ (peers.foldl (buildStep self) acc).2.1 ↔
      (x ∈ acc.2.1 ∨ ∃ p ∈ peers,
        (p.role = Role.LEADER ∨ p.role = Role.FOLLOWER) ∧
          p.permanent_uuid = x) := by
  induction peers generalizing acc with
  | nil => simp
  | cons p rest ih =>
    rw [List.foldl_cons, ih]
    show (x ∈ (buildStep self acc p).2.1 ∨ _) ↔ _
    unfold buildStep
    by_cases hv : p.role = Role.LEADER ∨ p.role = Role.FOLLOWER
    · simp only [hv, if_pos, setInsert_mem]
      constructor
      · rintro ((h | h) | h)
        · exact Or.inl h
        · exact Or.inr ⟨p, by simp, hv, h.symm⟩
        · obtain ⟨q, hq, hqr, hqx⟩ := h
          exact Or.inr ⟨q, by simp [hq], hqr, hqx⟩
      · rintro (h | ⟨q, hq, hqr, hqx⟩)
        · exact Or.inl (Or.inl h)
        · rcases List.mem_cons.mp hq with h | h
          · exact Or.inl (Or.inr (h ▸ hqx).symm)
          · exact Or.inr ⟨q, h, hqr, hqx⟩
    · simp only [hv, if_neg, not_false_iff]
      constructor
      · rintro (h | ⟨q, hq, hqr, hqx⟩)
        · exact Or.inl h
        · exact Or.inr ⟨q, by simp [hq], hqr, hqx⟩
      · rintro (h | ⟨q, hq, hqr, hqx⟩)
        · exact Or.inl h
        · rcases List.mem_cons.mp hq with h | h
          · exact absurd (h ▸ hqr) hv
          · exact Or.inr ⟨q, h, hqr, hqx⟩

/-- Characterisation of the self-role accumulator over the peer walk. -/
theorem build_role (self : String) (peers : List QuorumPeerPB)
    (acc : Role × List String × String) :
    (∃ p ∈ peers, p.permanent_uuid = self ∧
        (peers.foldl (buildStep self) acc).1 = p.role) ∨
      ((∀ p ∈ peers, p.permanent_uuid ≠ self) ∧
        (peers.foldl (buildStep self) acc).1 = acc.1) := by
  induction peers generalizing acc with
  | nil => simp
  | cons p rest ih =>
    rw [List.foldl_cons]
    rcases ih (buildStep self acc p) with ⟨q, hq, hqs, hqr⟩ | ⟨hall, heq⟩
    · exact Or.inl ⟨q, by simp [hq], hqs, hqr⟩
    · by_cases hs : p.permanent_uuid = self
      · refine Or.inl ⟨p, by simp, hs, ?_⟩
        rw [heq]
        unfold buildStep
        simp [hs]
      · refine Or.inr ⟨?_, ?_⟩
        · intro q hq
          rcases List.mem_cons.mp hq with h | h
          · exact h ▸ hs
          · exact hall q h
        · rw [heq]
          unfold buildStep
          simp [hs]

/-- Characterisation of the leader-uuid accumulator over the peer walk. -/
theorem build_leader (self : String) (peers : List QuorumPeerPB)
    (acc : Role × List String × String) :
    (∃ p ∈ peers, p.role = Role.LEADER ∧
        (peers.foldl (buildStep self) acc).2.2 = p.permanent_uuid) ∨
      ((∀ p ∈ peers, p.role ≠ Role.LEADER) ∧
        (peers.foldl (buildStep self) acc).2.2 = acc.2.2) := by
  induction peers generalizing acc with
  | nil => simp
  | cons p rest ih =>
    rw [List.foldl_cons]
    rcases ih (buildStep self acc p) with ⟨q, hq, hql, hqr⟩ | ⟨hall, heq⟩
    · exact Or.inl ⟨q, by simp [hq], hql, hqr⟩
    · by_cases hl : p.role = Role.LEADER
      · refine Or.inl ⟨p, by simp, hl, ?_⟩
        rw [heq]
        unfold buildStep
        simp [hl]
      · refine Or.inr ⟨?_, ?_⟩
        · intro q hq
          rcases List.mem_cons.mp hq with h | h
          · exact h ▸ hl
          · exact hall q h
        · rw [heq]
          unfold buildStep
          simp [hl]

/-- C5: `QuorumState::Build` never fails; `voting_peers` is exactly the
set of uuids of peers with role LEADER or FOLLOWER; `leader_uuid` is
the uuid of a LEADER peer (empty if none); `role` is the role of a peer
whose uuid equals self, or NON_PARTICIPANT if no such peer is listed;
`majority_size = ⌊|voting_peers|/2⌋ + 1` (so 1 for an empty voting
set); `quorum_size` is the number of listed peers; `config_seqno` is
the quorum's seqno. -/
theorem QuorumState_Build_correct (quorum : QuorumPB) (self_uuid : String) :
    (∀ x, x ∈ (QuorumState.Build quorum self_uuid).voting_peers ↔
      ∃ p ∈ quorum.peers,
        (p.role = Role.LEADER ∨ p.role = Role.FOLLOWER) ∧
          p.permanent_uuid = x) ∧
    ((∃ p ∈ quorum.peers, p.role = Role.LEADER ∧
        (QuorumState.Build quorum self_uuid).leader_uuid = p.permanent_uuid) ∨
      ((QuorumState.Build quorum self_uuid).leader_uuid = "" ∧
        ∀ p ∈ quorum.peers, p.role ≠ Role.LEADER)) ∧
    ((∃ p ∈ quorum.peers, p.permanent_uuid = self_uuid ∧
        (QuorumState.Build quorum self_uuid).role = p.role) ∨
      ((QuorumState.Build quorum self_uuid).role = Role.NON_PARTICIPANT ∧
        ∀ p ∈ quorum.peers, p.permanent_uuid ≠ self_uuid)) ∧
    (QuorumState.Build quorum self_uuid).majority_size =
      (QuorumState.Build quorum self_uuid).voting_peers.length / 2 + 1 ∧
    ((QuorumState.Build quorum self_uuid).voting_peers = [] →
      (QuorumState.Build quorum self_uuid).majority_size = 1) ∧
    (QuorumState.Build quorum self_uuid).quorum_size = quorum.peers.length ∧
    (QuorumState.Build quorum self_uuid).config_seqno = quorum.seqno := by
  refine ⟨?_, ?_, ?_, rfl, ?_, rfl, rfl⟩
  · intro x
    show x ∈ (quorum.peers.foldl (buildStep self_uuid)
      (Role.NON_PARTICIPANT, [], "")).2.1 ↔ _
    rw [build_voting_mem]
    simp
  · rcases build_leader self_uuid quorum.peers
      (Role.NON_PARTICIPANT, [], "") with ⟨p, hp, hpl, hpr⟩ | ⟨hall, heq⟩
    · exact Or.inl ⟨p, hp, hpl, hpr⟩
    · exact Or.inr ⟨heq, hall⟩
  · rcases build_role self_uuid quorum.peers
      (Role.NON_PARTICIPANT, [], "") with ⟨p, hp, hps, hpr⟩ | ⟨hall, heq⟩
    · exact Or.inl ⟨p, hp, hps, hpr⟩
    · exact Or.inr ⟨heq, hall⟩
  · intro hempty
    show (QuorumState.Build quorum self_uuid).voting_peers.length / 2 + 1 = 1
    rw [hempty]
    rfl

/-- Closed instance of `QuorumState_Build_correct` on a concrete
three-peer quorum. -/
theorem QuorumState_Build_correct_witness :
    (∀ x, x ∈ (QuorumState.Build
        ⟨[⟨"a", Role.LEADER⟩, ⟨"b", Role.FOLLOWER⟩, ⟨"c", Role.LEARNER⟩],
          (7 : Int)⟩ "b").voting_peers ↔
      ∃ p ∈ [QuorumPeerPB.mk "a" Role.LEADER, ⟨"b", Role.FOLLOWER⟩,
          ⟨"c", Role.LEARNER⟩],
        (p.role = Role.LEADER ∨ p.role = Role.FOLLOWER) ∧
          p.permanent_uuid = x) ∧
    ((∃ p ∈ [QuorumPeerPB.mk "a" Role.LEADER, ⟨"b", Role.FOLLOWER⟩,
          ⟨"c", Role.LEARNER⟩], p.role = Role.LEADER ∧
        (QuorumState.Build
          ⟨[⟨"a", Role.LEADER⟩, ⟨"b", Role.FOLLOWER⟩, ⟨"c", Role.LEARNER⟩],
            (7 : Int)⟩ "b").leader_uuid = p.permanent_uuid) ∨
      ((QuorumState.Build
          ⟨[⟨"a", Role.LEADER⟩, ⟨"b", Role.FOLLOWER⟩, ⟨"c", Role.LEARNER⟩],
            (7 : Int)⟩ "b").leader_uuid = "" ∧
        ∀ p ∈ [QuorumPeerPB.mk "a" Role.LEADER, ⟨"b", Role.FOLLOWER⟩,
          ⟨"c", Role.LEARNER⟩], p.role ≠ Role.LEADER)) ∧
    ((∃ p ∈ [QuorumPeerPB.mk "a" Role.LEADER, ⟨"b", Role.FOLLOWER⟩,
          ⟨"c", Role.LEARNER⟩], p.permanent_uuid = "b" ∧
        (QuorumState.Build
          ⟨[⟨"a", Role.LEADER⟩, ⟨"b", Role.FOLLOWER⟩, ⟨"c", Role.LEARNER⟩],
            (7 : Int)⟩ "b").role = p.role) ∨
      ((QuorumState.Build
          ⟨[⟨"a", Role.LEADER⟩, ⟨"b", Role.FOLLOWER⟩, ⟨"c", Role.LEARNER⟩],
            (7 : Int)⟩ "b").role = Role.NON_PARTICIPANT ∧
        ∀ p ∈ [QuorumPeerPB.mk "a" Role.LEADER, ⟨"b", Role.FOLLOWER⟩,
          ⟨"c", Role.LEARNER⟩], p.permanent_uuid ≠ "b")) ∧
    (QuorumState.Build
      ⟨[⟨"a", Role.LEADER⟩, ⟨"b", Role.FOLLOWER⟩, ⟨"c", Role.LEARNER⟩],
        (7 : Int)⟩ "b").majority_size =
      (QuorumState.Build
        ⟨[⟨"a", Role.LEADER⟩, ⟨"b", Role.FOLLOWER⟩, ⟨"c", Role.LEARNER⟩],
          (7 : Int)⟩ "b").voting_peers.length / 2 + 1 ∧
    ((QuorumState.Build
        ⟨[⟨"a", Role.LEADER⟩, ⟨"b", Role.FOLLOWER⟩, ⟨"c", Role.LEARNER⟩],
          (7 : Int)⟩ "b").voting_peers = [] →
      (QuorumState.Build
        ⟨[⟨"a", Role.LEADER⟩, ⟨"b", Role.FOLLOWER⟩, ⟨"c", Role.LEARNER⟩],
          (7 : Int)⟩ "b").majority_size = 1) ∧
    (QuorumState.Build
      ⟨[⟨"a", Role.LEADER⟩, ⟨"b", Role.FOLLOWER⟩, ⟨"c", Role.LEARNER⟩],
        (7 : Int)⟩ "b").quorum_size =
      [QuorumPeerPB.mk "a" Role.LEADER, ⟨"b", Role.FOLLOWER⟩,
        ⟨"c", Role.LEARNER⟩].length ∧
    (QuorumState.Build
      ⟨[⟨"a", Role.LEADER⟩, ⟨"b", Role.FOLLOWER⟩, ⟨"c", Role.LEARNER⟩],
        (7 : Int)⟩ "b").config_seqno = (7 : Int) :=
  QuorumState_Build_correct
    ⟨[⟨"a", Role.LEADER⟩, ⟨"b", Role.FOLLOWER⟩, ⟨"c", Role.LEARNER⟩],
      (7 : Int)⟩ "b"

/-- Normal form of `SetCurrentTermUnlocked`: a lower term is rejected
without touching anything; otherwise the in-memory term is set and the
vote cleared, the status is the flush outcome, and the durable copy
advances only on a successful flush. -/
theorem SetCurrentTermUnlocked_eq (rs : ReplicaState) (new_term : Nat)
    (flushRes : Status) :
    rs.SetCurrentTermUnlocked new_term flushRes =
      if new_term < rs.cmeta.pb.current_term then (Status.illegalState, rs)
      else
        (flushRes,
          { rs with cmeta :=
            { pb := { rs.cmeta.pb with current_term := new_term, voted_for := none }
              durable := if flushRes = Status.ok then
                  { rs.cmeta.pb with current_term := new_term, voted_for := none }
                else rs.cmeta.durable } }) := by
  unfold ReplicaState.SetCurrentTermUnlocked ReplicaState.GetCurrentTermUnlocked
    ReplicaState.flushCmeta ConsensusMetadata.Flush
  by_cases hf : flushRes = Status.ok <;>
    by_cases ht : new_term < rs.cmeta.pb.current_term <;>
      simp [hf, ht]

/-- Normal form of `IncrementTermUnlocked`. -/
theorem IncrementTermUnlocked_eq (rs : ReplicaState) (flushRes : Status) :
    rs.IncrementTermUnlocked flushRes =
      (flushRes,
        { rs with cmeta :=
          { pb := { rs.cmeta.pb with
              current_term := rs.cmeta.pb.current_term + 1, voted_for := none }
            durable := if flushRes = Status.ok then
                { rs.cmeta.pb with
                    current_term := rs.cmeta.pb.current_term + 1, voted_for := none }
              else rs.cmeta.durable } }) := by
  unfold ReplicaState.IncrementTermUnlocked ReplicaState.flushCmeta
    ConsensusMetadata.Flush
  by_cases hf : flushRes = Status.ok <;> simp [hf]

/-- Normal form of `SetVotedForCurrentTermUnlocked`. -/
theorem SetVotedForCurrentTermUnlocked_eq (rs : ReplicaState) (uuid : String)
    (flushRes : Status) :
    rs.SetVotedForCurrentTermUnlocked uuid flushRes =
      (flushRes,
        { rs with cmeta :=
          { pb := { rs.cmeta.pb with voted_for := some uuid }
            durable := if flushRes = Status.ok then
                { rs.cmeta.pb with voted_for := some uuid }
              else rs.cmeta.durable } }) := by
  unfold ReplicaState.SetVotedForCurrentTermUnlocked ReplicaState.flushCmeta
    ConsensusMetadata.Flush
  by_cases hf : flushRes = Status.ok <;> simp [hf]

/-- Normal form of `IncrementConfigSeqNoUnlocked`. -/
theorem IncrementConfigSeqNoUnlocked_eq (rs : ReplicaState) (flushRes : Status) :
    rs.IncrementConfigSeqNoUnlocked flushRes =
      (flushRes,
        { rs with cmeta :=
          { pb := { rs.cmeta.pb with committed_quorum :=
              { rs.cmeta.pb.committed_quorum with
                  seqno := rs.cmeta.pb.committed_quorum.seqno + 1 } }
            durable := if flushRes = Status.ok then
                { rs.cmeta.pb with committed_quorum :=
                  { rs.cmeta.pb.committed_quorum with
                      seqno := rs.cmeta.pb.committed_quorum.seqno + 1 } }
              else rs.cmeta.durable } }) := by
  unfold ReplicaState.IncrementConfigSeqNoUnlocked ReplicaState.flushCmeta
    ConsensusMetadata.Flush
  by_cases hf : flushRes = Status.ok <;> simp [hf]

/-- Normal form of `SetCommittedQuorumUnlocked` in the no-pending case. -/
theorem SetCommittedQuorumUnlocked_eq_of_no_pending (rs : ReplicaState)
    (new_quorum : QuorumPB) (flushRes : Status)
    (hp : rs.pending_quorum = none) :
    rs.SetCommittedQuorumUnlocked new_quorum flushRes =
      (flushRes,
        { rs with
            active_quorum_state := QuorumState.Build new_quorum rs.peer_uuid
            pending_quorum := none
            cmeta :=
              { pb := { rs.cmeta.pb with committed_quorum := new_quorum }
                durable := if flushRes = Status.ok then
                    { rs.cmeta.pb with committed_quorum := new_quorum }
                  else rs.cmeta.durable } }) := by
  unfold ReplicaState.SetCommittedQuorumUnlocked
    ReplicaState.ResetActiveQuorumStateUnlocked ReplicaState.flushCmeta
    ConsensusMetadata.Flush
  by_cases hf : flushRes = Status.ok <;> simp [hf, hp]

/-- Normal form of `SetCommittedQuorumUnlocked` when a quorum change is
pending (the source CHECKs the pending quorum byte-equal to
`new_quorum`; the check does not mutate, so the normal form holds for
any pending value, and theorems restrict to the reachable equal case):
the active snapshot is not rebuilt, and the pending slot is cleared
only after a successful flush. -/
theorem SetCommittedQuorumUnlocked_eq_of_pending (rs : ReplicaState)
    (new_quorum : QuorumPB) (flushRes : Status) (q : QuorumPB)
    (hp : rs.pending_quorum = some q) :
    rs.SetCommittedQuorumUnlocked new_quorum flushRes =
      if flushRes = Status.ok then
        (Status.ok,
          { rs with
              pending_quorum := none
              cmeta :=
                { pb := { rs.cmeta.pb with committed_quorum := new_quorum }
                  durable :=
                    { rs.cmeta.pb with committed_quorum := new_quorum } } })
      else
        (flushRes,
          { rs with cmeta :=
            { pb := { rs.cmeta.pb with committed_quorum := new_quorum }
              durable := rs.cmeta.durable } }) := by
  unfold ReplicaState.SetCommittedQuorumUnlocked
    ReplicaState.ResetActiveQuorumStateUnlocked ReplicaState.flushCmeta
    ConsensusMetadata.Flush
  by_cases hf : flushRes = Status.ok <;> simp [hf, hp]

/-- C2 counterexample: on a failed consensus-metadata flush,
`SetCurrentTermUnlocked` returns the flush error yet the observable
in-memory term has already changed (6, not the prior 5) and the vote
has been cleared, so the in-memory state does not equal the state
before the call. -/
theorem flush_failure_mutates_memory_counterexample :
    (sampleReplicaState.SetCurrentTermUnlocked 6 Status.ioError).1 =
        Status.ioError ∧
      sampleReplicaState.GetCurrentTermUnlocked = 5 ∧
      (sampleReplicaState.SetCurrentTermUnlocked 6
          Status.ioError).2.GetCurrentTermUnlocked = 6 ∧
      sampleReplicaState.cmeta.pb.voted_for = some "a" ∧
      (sampleReplicaState.SetCurrentTermUnlocked 6
          Status.ioError).2.cmeta.pb.voted_for = none := by
  decide

/-- C2 (amended): if the consensus-metadata flush fails, every
durable-state mutator returns the flush error and leaves the durable
(persisted) metadata unchanged, but the in-memory state already
reflects the attempted mutation: the term is set and the vote cleared
(set/increment term), the vote is recorded (set_voted_for), the
committed quorum is replaced and the pending-quorum slot is left
unchanged rather than cleared (set_committed_quorum, both with no
pending change and with the pending quorum the source's CHECK admits —
one equal to new_quorum), and the seqno is bumped
(increment_config_seqno). -/
theorem flush_failure_returns_error_but_memory_mutated (rs : ReplicaState)
    (flushRes : Status) (hf : flushRes ≠ Status.ok) :
    (∀ new_term, ¬ new_term < rs.GetCurrentTermUnlocked →
      (rs.SetCurrentTermUnlocked new_term flushRes).1 = flushRes ∧
      (rs.SetCurrentTermUnlocked new_term flushRes).2.cmeta.durable =
        rs.cmeta.durable ∧
      (rs.SetCurrentTermUnlocked new_term flushRes).2.cmeta.pb =
        { rs.cmeta.pb with current_term := new_term, voted_for := none }) ∧
    ((rs.IncrementTermUnlocked flushRes).1 = flushRes ∧
      (rs.IncrementTermUnlocked flushRes).2.cmeta.durable = rs.cmeta.durable ∧
      (rs.IncrementTermUnlocked flushRes).2.cmeta.pb =
        { rs.cmeta.pb with
            current_term := rs.cmeta.pb.current_term + 1, voted_for := none }) ∧
    (∀ uuid,
      (rs.SetVotedForCurrentTermUnlocked uuid flushRes).1 = flushRes ∧
      (rs.SetVotedForCurrentTermUnlocked uuid flushRes).2.cmeta.durable =
        rs.cmeta.durable ∧
      (rs.SetVotedForCurrentTermUnlocked uuid flushRes).2.cmeta.pb =
        { rs.cmeta.pb with voted_for := some uuid }) ∧
    (∀ new_quorum,
      (rs.pending_quorum = none ∨ rs.pending_quorum = some new_quorum) →
      (rs.SetCommittedQuorumUnlocked new_quorum flushRes).1 = flushRes ∧
      (rs.SetCommittedQuorumUnlocked new_quorum flushRes).2.cmeta.durable =
        rs.cmeta.durable ∧
      (rs.SetCommittedQuorumUnlocked new_quorum flushRes).2.cmeta.pb =
        { rs.cmeta.pb with committed_quorum := new_quorum } ∧
      (rs.SetCommittedQuorumUnlocked new_quorum flushRes).2.pending_quorum =
        rs.pending_quorum) ∧
    ((rs.IncrementConfigSeqNoUnlocked flushRes).1 = flushRes ∧
      (rs.IncrementConfigSeqNoUnlocked flushRes).2.cmeta.durable =
        rs.cmeta.durable ∧
      (rs.IncrementConfigSeqNoUnlocked flushRes).2.cmeta.pb.committed_quorum.seqno =
        rs.cmeta.pb.committed_quorum.seqno + 1) := by
  refine ⟨?_, ?_, ?_, ?_, ?_⟩
  · intro new_term ht
    rw [ReplicaState.GetCurrentTermUnlocked] at ht
    rw [SetCurrentTermUnlocked_eq]
    simp [ht, hf]
  · rw [IncrementTermUnlocked_eq]
    simp [hf]
  · intro uuid
    rw [SetVotedForCurrentTermUnlocked_eq]
    simp [hf]
  · intro new_quorum hp
    rcases hp with hp | hp
    · rw [SetCommittedQuorumUnlocked_eq_of_no_pending rs new_quorum flushRes hp]
      simp [hf, hp]
    · rw [SetCommittedQuorumUnlocked_eq_of_pending rs new_quorum flushRes
        new_quorum hp]
      simp [hf]
  · rw [IncrementConfigSeqNoUnlocked_eq]
    simp [hf]

/-- Closed instance of
`flush_failure_returns_error_but_memory_mutated` at the sample state
with a failed flush. -/
theorem flush_failure_returns_error_but_memory_mutated_witness :
    (∀ new_term,
        ¬ new_term < sampleReplicaState.GetCurrentTermUnlocked →
      (sampleReplicaState.SetCurrentTermUnlocked new_term Status.ioError).1 =
          Status.ioError ∧
      (sampleReplicaState.SetCurrentTermUnlocked new_term
          Status.ioError).2.cmeta.durable = sampleReplicaState.cmeta.durable ∧
      (sampleReplicaState.SetCurrentTermUnlocked new_term
          Status.ioError).2.cmeta.pb =
        { sampleReplicaState.cmeta.pb with
            current_term := new_term, voted_for := none }) ∧
    ((sampleReplicaState.IncrementTermUnlocked Status.ioError).1 =
        Status.ioError ∧
      (sampleReplicaState.IncrementTermUnlocked
          Status.ioError).2.cmeta.durable = sampleReplicaState.cmeta.durable ∧
      (sampleReplicaState.IncrementTermUnlocked Status.ioError).2.cmeta.pb =
        { sampleReplicaState.cmeta.pb with
            current_term := sampleReplicaState.cmeta.pb.current_term + 1
            voted_for := none }) ∧
    (∀ uuid,
      (sampleReplicaState.SetVotedForCurrentTermUnlocked uuid
          Status.ioError).1 = Status.ioError ∧
      (sampleReplicaState.SetVotedForCurrentTermUnlocked uuid
          Status.ioError).2.cmeta.durable = sampleReplicaState.cmeta.durable ∧
      (sampleReplicaState.SetVotedForCurrentTermUnlocked uuid
          Status.ioError).2.cmeta.pb =
        { sampleReplicaState.cmeta.pb with voted_for := some uuid }) ∧
    (∀ new_quorum,
      (sampleReplicaState.pending_quorum = none ∨
        sampleReplicaState.pending_quorum = some new_quorum) →
      (sampleReplicaState.SetCommittedQuorumUnlocked new_quorum
          Status.ioError).1 = Status.ioError ∧
      (sampleReplicaState.SetCommittedQuorumUnlocked new_quorum
          Status.ioError).2.cmeta.durable = sampleReplicaState.cmeta.durable ∧
      (sampleReplicaState.SetCommittedQuorumUnlocked new_quorum
          Status.ioError).2.cmeta.pb =
        { sampleReplicaState.cmeta.pb with committed_quorum := new_quorum } ∧
      (sampleReplicaState.SetCommittedQuorumUnlocked new_quorum
          Status.ioError).2.pending_quorum =
        sampleReplicaState.pending_quorum) ∧
    ((sampleReplicaState.IncrementConfigSeqNoUnlocked Status.ioError).1 =
        Status.ioError ∧
      (sampleReplicaState.IncrementConfigSeqNoUnlocked
          Status.ioError).2.cmeta.durable = sampleReplicaState.cmeta.durable ∧
      (sampleReplicaState.IncrementConfigSeqNoUnlocked
          Status.ioError).2.cmeta.pb.committed_quorum.seqno =
        sampleReplicaState.cmeta.pb.committed_quorum.seqno + 1) :=
  flush_failure_returns_error_but_memory_mutated sampleReplicaState
    Status.ioError (by decide)

/-- One durable-term mutation never decreases the in-memory term. -/
theorem applyTermMutation_term_mono (rs : ReplicaState) (m : TermMutation) :
    rs.GetCurrentTermUnlocked ≤
      ((applyTermMutation rs m).2).GetCurrentTermUnlocked := by
  cases m with
  | setTerm t f =>
    show rs.GetCurrentTermUnlocked ≤
      ((rs.SetCurrentTermUnlocked t f).2).GetCurrentTermUnlocked
    rw [SetCurrentTermUnlocked_eq]
    by_cases ht : t < rs.cmeta.pb.current_term
    · simp [ht, ReplicaState.GetCurrentTermUnlocked]
    · simp [ht, ReplicaState.GetCurrentTermUnlocked]
      omega
  | incrTerm f =>
    show rs.GetCurrentTermUnlocked ≤
      ((rs.IncrementTermUnlocked f).2).GetCurrentTermUnlocked
    rw [IncrementTermUnlocked_eq]
    simp [ReplicaState.GetCurrentTermUnlocked]

theorem runTermMutations_term_mono (rs : ReplicaState) (ms : List TermMutation) :
    rs.GetCurrentTermUnlocked ≤
      (runTermMutations rs ms).GetCurrentTermUnlocked := by
  induction ms generalizing rs with
  | nil => exact Nat.le_refl _
  | cons m rest ih =>
    exact Nat.le_trans (applyTermMutation_term_mono rs m)
      (ih (applyTermMutation rs m).2)

/-- C3: across any sequence of `set_current_term` / `increment_term`
calls the observable current term is non-decreasing, and a call with a
strictly smaller term returns IllegalState leaving the replica state
(including the persisted metadata: no flush occurs) exactly as it was. -/
theorem term_monotonic_and_decrease_rejected (rs : ReplicaState) :
    (∀ ms : List TermMutation,
      rs.GetCurrentTermUnlocked ≤
        (runTermMutations rs ms).GetCurrentTermUnlocked) ∧
    (∀ new_term flushRes, new_term < rs.GetCurrentTermUnlocked →
      rs.SetCurrentTermUnlocked new_term flushRes = (Status.illegalState, rs)) := by
  refine ⟨runTermMutations_term_mono rs, ?_⟩
  intro new_term flushRes ht
  rw [ReplicaState.GetCurrentTermUnlocked] at ht
  rw [SetCurrentTermUnlocked_eq]
  simp [ht]

/-- Closed instance of `term_monotonic_and_decrease_rejected` at the
sample state. -/
theorem term_monotonic_and_decrease_rejected_witness :
    (∀ ms : List TermMutation,
      sampleReplicaState.GetCurrentTermUnlocked ≤
        (runTermMutations sampleReplicaState ms).GetCurrentTermUnlocked) ∧
    (∀ new_term flushRes,
        new_term < sampleReplicaState.GetCurrentTermUnlocked →
      sampleReplicaState.SetCurrentTermUnlocked new_term flushRes =
        (Status.illegalState, sampleReplicaState)) :=
  term_monotonic_and_decrease_rejected sampleReplicaState

/-- C4 counterexample: with the current term 5 and a recorded vote,
`SetCurrentTermUnlocked(5)` succeeds (new_term equals the current
term) yet clears the vote, contradicting the claim that an equal-term
call leaves an existing vote record unchanged. -/
theorem set_equal_term_clears_vote_counterexample :
    sampleReplicaState.GetCurrentTermUnlocked = 5 ∧
      sampleReplicaState.cmeta.pb.voted_for = some "a" ∧
      (sampleReplicaState.SetCurrentTermUnlocked 5 Status.ok).1 = Status.ok ∧
      (sampleReplicaState.SetCurrentTermUnlocked 5
          Status.ok).2.cmeta.pb.voted_for = none := by
  decide

/-- C4 (amended): every successful `set_current_term(new_term)` with
`new_term ≥ current_term` sets the term to `new_term` and clears
`voted_for` unconditionally — also when `new_term` equals the current
term, in which case an existing vote record is erased. -/
theorem set_current_term_always_clears_vote (rs : ReplicaState)
    (new_term : Nat) (flushRes : Status)
    (ht : ¬ new_term < rs.GetCurrentTermUnlocked) :
    (rs.SetCurrentTermUnlocked new_term flushRes).1 = flushRes ∧
    (rs.SetCurrentTermUnlocked new_term flushRes).2.GetCurrentTermUnlocked =
      new_term ∧
    (rs.SetCurrentTermUnlocked new_term flushRes).2.cmeta.pb.voted_for =
      none := by
  rw [ReplicaState.GetCurrentTermUnlocked] at ht
  rw [SetCurrentTermUnlocked_eq]
  simp [ht, ReplicaState.GetCurrentTermUnlocked]

/-- Closed instance of `set_current_term_always_clears_vote` at the
sample state with an equal term. -/
theorem set_current_term_always_clears_vote_witness :
    (sampleReplicaState.SetCurrentTermUnlocked 5 Status.ok).1 = Status.ok ∧
    (sampleReplicaState.SetCurrentTermUnlocked 5
        Status.ok).2.GetCurrentTermUnlocked = 5 ∧
    (sampleReplicaState.SetCurrentTermUnlocked 5
        Status.ok).2.cmeta.pb.voted_for = none :=
  set_current_term_always_clears_vote sampleReplicaState 5 Status.ok
    (by decide)

/-- C8 counterexample: `UpdateLastReplicatedOpIdUnlocked` performs no
check, so calling it with (5,3) while the replicated watermark is
(5,9) makes the watermark decrease: the claimed monotonicity fails for
an argument the operation accepts. -/
theorem replicated_watermark_can_decrease_counterexample :
    ¬ OpIdCompare sampleReplicaState.replicated_op_id
        ((sampleReplicaState.UpdateLastReplicatedOpIdUnlocked
          ⟨5, 3⟩).replicated_op_id) ≤ 0 := by
  decide

/-- C8 (amended): `update_last_replicated_op_id(op_id)` unconditionally
overwrites the replicated watermark with `op_id` (no check is
performed), so the watermark after the call is ≥ the watermark before
it exactly when the caller passes `op_id` ≥ the current watermark. -/
theorem update_last_replicated_sets_watermark (rs : ReplicaState)
    (op_id : OpId) :
    (rs.UpdateLastReplicatedOpIdUnlocked op_id).replicated_op_id = op_id ∧
    (OpIdCompare rs.replicated_op_id op_id ≤ 0 →
      OpIdCompare rs.replicated_op_id
        ((rs.UpdateLastReplicatedOpIdUnlocked op_id).replicated_op_id) ≤ 0) := by
  constructor
  · rfl
  · intro h
    exact h

/-- Closed instance of `update_last_replicated_sets_watermark` at the
sample state with a larger op id. -/
theorem update_last_replicated_sets_watermark_witness :
    (sampleReplicaState.UpdateLastReplicatedOpIdUnlocked
        ⟨5, 12⟩).replicated_op_id = (⟨5, 12⟩ : OpId) ∧
    (OpIdCompare sampleReplicaState.replicated_op_id ⟨5, 12⟩ ≤ 0 →
      OpIdCompare sampleReplicaState.replicated_op_id
        ((sampleReplicaState.UpdateLastReplicatedOpIdUnlocked
          ⟨5, 12⟩).replicated_op_id) ≤ 0) :=
  update_last_replicated_sets_watermark sampleReplicaState ⟨5, 12⟩

theorem filter_ne_key_eq_self (l : List (OpId × ConsensusRound)) (k : OpId)
    (h : ∀ e ∈ l, e.1 ≠ k) :
    l.filter (fun e => ¬ e.1 = k) = l := by
  rw [List.filter_eq_self]
  intro a ha
  simp [h a ha]

theorem filter_ne_key_insertPendingOp (l : List (OpId × ConsensusRound))
    (k : OpId) (v : ConsensusRound) (h : ∀ e ∈ l, e.1 ≠ k) :
    (insertPendingOp l k v).filter (fun e => ¬ e.1 = k) = l := by
  induction l with
  | nil => simp [insertPendingOp]
  | cons e rest ih =>
    have he : ¬ e.1 = k := h e (by simp)
    have ih2 := ih (fun x hx => h x (by simp [hx]))
    have hrest := filter_ne_key_eq_self (e :: rest) k h
    unfold insertPendingOp
    by_cases hc : OpIdCompare k e.1 < 0
    · simp only [hc, if_true]
      simp only [List.filter_cons] at hrest ⊢
      simpa using hrest
    · simp only [hc, if_false]
      simp only [decide_not] at ih2
      simp [List.filter_cons, he, ih2]

/-- Normal form of `AddPendingOperation` in the kRunning state. -/
theorem AddPendingOperation_eq_of_running (rs : ReplicaState)
    (round : ConsensusRound) (hrun : rs.state = RState.kRunning) :
    rs.AddPendingOperation round =
      (Status.ok, { rs with pending_txns := (insertPendingOp
        rs.pending_txns round.id round) }) := by
  unfold ReplicaState.AddPendingOperation
  simp [hrun]

/-- C7: `cancel_pending` is the inverse of `new_id` for the most
recently assigned id: from a running state with term t and next index
n, `new_id` returns (t, n) and leaves next_index = n + 1; after
admitting the stamped round, the cancel preconditions hold ((t,n).term
equals the current term and (t,n).index + 1 equals next_index), and
`cancel_pending((t,n))` restores next_index to n and removes the
pending entry keyed (t,n), so the pending map and next_index equal
their values before new_id and admission. -/
theorem new_id_cancel_inverse (rs : ReplicaState) (round : ConsensusRound)
    (hrun : rs.state = RState.kRunning)
    (hfresh : ∀ e ∈ rs.pending_txns,
      e.1 ≠ (⟨rs.GetCurrentTermUnlocked, rs.next_index⟩ : OpId)) :
    rs.NewIdUnlocked.1 = (⟨rs.GetCurrentTermUnlocked, rs.next_index⟩ : OpId) ∧
    rs.NewIdUnlocked.2.next_index = rs.next_index + 1 ∧
    (rs.NewIdUnlocked.2.AddPendingOperation
      { round with id := rs.NewIdUnlocked.1 }).1 = Status.ok ∧
    rs.NewIdUnlocked.1.term =
      ((rs.NewIdUnlocked.2.AddPendingOperation
        { round with id := rs.NewIdUnlocked.1 }).2).GetCurrentTermUnlocked ∧
    rs.NewIdUnlocked.1.index + 1 =
      ((rs.NewIdUnlocked.2.AddPendingOperation
        { round with id := rs.NewIdUnlocked.1 }).2).next_index ∧
    (((rs.NewIdUnlocked.2.AddPendingOperation
        { round with id := rs.NewIdUnlocked.1 }).2).CancelPendingOperation
      rs.NewIdUnlocked.1).next_index = rs.next_index ∧
    (((rs.NewIdUnlocked.2.AddPendingOperation
        { round with id := rs.NewIdUnlocked.1 }).2).CancelPendingOperation
      rs.NewIdUnlocked.1).pending_txns = rs.pending_txns := by
  have hnew : rs.NewIdUnlocked =
      ((⟨rs.GetCurrentTermUnlocked, rs.next_index⟩ : OpId),
        { rs with next_index := rs.next_index + 1 }) := rfl
  have hrun1 : rs.NewIdUnlocked.2.state = RState.kRunning := hrun
  rw [AddPendingOperation_eq_of_running _ _ hrun1]
  refine ⟨rfl, rfl, rfl, rfl, rfl, rfl, ?_⟩
  show (insertPendingOp rs.pending_txns rs.NewIdUnlocked.1
      { round with id := rs.NewIdUnlocked.1 }).filter
      (fun e => ¬ e.1 = rs.NewIdUnlocked.1) = rs.pending_txns
  exact filter_ne_key_insertPendingOp rs.pending_txns _ _ hfresh

/-- Closed instance of `new_id_cancel_inverse` at the sample state:
after stamping, admitting, and cancelling a write round, the pending
map and next index are restored. -/
theorem new_id_cancel_inverse_witness :
    (((sampleReplicaState.NewIdUnlocked.2.AddPendingOperation
        { id := sampleReplicaState.NewIdUnlocked.1,
          op_type := OperationType.WRITE_OP,
          hasCommitContinuation := true,
          continuationResult := Status.ok,
          submitResult := Status.ok }).2).CancelPendingOperation
      sampleReplicaState.NewIdUnlocked.1).next_index =
        sampleReplicaState.next_index ∧
    (((sampleReplicaState.NewIdUnlocked.2.AddPendingOperation
        { id := sampleReplicaState.NewIdUnlocked.1,
          op_type := OperationType.WRITE_OP,
          hasCommitContinuation := true,
          continuationResult := Status.ok,
          submitResult := Status.ok }).2).CancelPendingOperation
      sampleReplicaState.NewIdUnlocked.1).pending_txns =
        sampleReplicaState.pending_txns :=
  have h := new_id_cancel_inverse sampleReplicaState
    { id := sampleReplicaState.NewIdUnlocked.1,
      op_type := OperationType.WRITE_OP,
      hasCommitContinuation := true,
      continuationResult := Status.ok,
      submitResult := Status.ok }
    (by decide) (by decide)
  ⟨h.2.2.2.2.2.1, h.2.2.2.2.2.2⟩

/-- C6: `update_committed_op_id(op_id)` with `op_id` in both
`in_flight_commits` and `pending_txns` removes it from both sets,
fires the commit watchers registered at exactly `op_id`
(MARK_ONLY_THIS_OP) leaving every other registered watcher untouched,
and when the lifecycle state is SHUTTING_DOWN decrements the drain
latch by one as part of the same operation. -/
theorem update_committed_op_id_correct (rs : ReplicaState) (op_id : OpId)
    (hin : op_id ∈ rs.in_flight_commits)
    (hpend : op_id ∈ rs.pending_txns.map Prod.fst) :
    op_id ∉ (rs.UpdateCommittedOpId op_id).in_flight_commits ∧
    op_id ∉ (rs.UpdateCommittedOpId op_id).pending_txns.map Prod.fst ∧
    (∀ i ∈ rs.in_flight_commits, i ≠ op_id →
      i ∈ (rs.UpdateCommittedOpId op_id).in_flight_commits) ∧
    (∀ e ∈ rs.pending_txns, e.1 ≠ op_id →
      e ∈ (rs.UpdateCommittedOpId op_id).pending_txns) ∧
    (rs.UpdateCommittedOpId op_id).commit_watchers =
      rs.commit_watchers.filter (fun e => ¬ e.1 = op_id) ∧
    (rs.UpdateCommittedOpId op_id).events =
      rs.events ++ ((rs.commit_watchers.filter
        (fun e => e.1 = op_id)).map Prod.snd).map
        (Event.commitWatcherFired op_id) ∧
    (rs.UpdateCommittedOpId op_id).replicate_watchers =
      rs.replicate_watchers ∧
    (rs.UpdateCommittedOpId op_id).in_flight_applies_latch =
      (if rs.state = RState.kShuttingDown then
        rs.in_flight_applies_latch - 1
      else rs.in_flight_applies_latch) := by
  unfold ReplicaState.UpdateCommittedOpId
    ReplicaState.UpdateCommittedOpIdUnlocked markOnlyThisOp
    ReplicaState.CountDownOutstandingCommitsIfShuttingDown
  by_cases hs : rs.state = RState.kShuttingDown <;>
    simp [hs, List.mem_filter] <;>
    exact ⟨fun i hi hne => ⟨hi, hne⟩, fun a b hab hne => ⟨hab, hne⟩⟩

/-- Closed instance of `update_committed_op_id_correct`: one op in
flight and pending, one watcher at the op and one at another id, in
the SHUTTING_DOWN state. -/
theorem update_committed_op_id_correct_witness :
    (sampleShutdownState.UpdateCommittedOpId ⟨5, 9⟩).commit_watchers =
      sampleShutdownState.commit_watchers.filter
        (fun e => ¬ e.1 = (⟨5, 9⟩ : OpId)) ∧
    (sampleShutdownState.UpdateCommittedOpId ⟨5, 9⟩).in_flight_applies_latch =
      (if sampleShutdownState.state = RState.kShuttingDown then
        sampleShutdownState.in_flight_applies_latch - 1
      else sampleShutdownState.in_flight_applies_latch) ∧
    (⟨5, 9⟩ : OpId) ∉
      (sampleShutdownState.UpdateCommittedOpId ⟨5, 9⟩).in_flight_commits :=
  have h := update_committed_op_id_correct sampleShutdownState ⟨5, 9⟩
    (by decide) (by decide)
  ⟨h.2.2.2.2.1, h.2.2.2.2.2.2.2, h.1⟩

/-- C9: for a FINALIZE_COMMIT participant op, `PerformOp` invokes the
transaction's `FinalizeCommit` mutator with the op id and the
finalized commit timestamp, finishes the commit MVCC op exactly when
the transaction currently holds one (leaving the slot itself
untouched), and succeeds; `Apply` wraps it (after `StartApplying`),
still succeeds, and when no commit MVCC op is present the finalize
performs no MVCC action beyond `StartApplying`. -/
theorem finalize_commit_apply_correct (op : ParticipantOpPB) (txn : Txn)
    (op_id : OpId) (mvccOp : Option Nat)
    (hty : op.op_type = ParticipantOpType.FINALIZE_COMMIT) :
    (ParticipantOpState.PerformOp op txn op_id).1 = Status.ok ∧
    (ParticipantOpState.PerformOp op txn op_id).2.1.log =
      txn.log ++ [TxnEvent.finalizedCommit op_id
        op.finalized_commit_timestamp] ∧
    (ParticipantOpState.PerformOp op txn op_id).2.1.commit_op =
      txn.commit_op ∧
    ((ParticipantOpState.PerformOp op txn op_id).2.2.1 =
      match txn.commit_op with
      | some ts => [MvccAction.finishApplying ts]
      | none => []) ∧
    (ParticipantOp.Apply op txn op_id mvccOp).1 = Status.ok ∧
    (txn.commit_op = none →
      (ParticipantOp.Apply op txn op_id mvccOp).2.2.1 =
        [MvccAction.startApplying]) := by
  cases hco : txn.commit_op <;>
    simp [ParticipantOpState.PerformOp, ParticipantOp.Apply, hty, hco,
      Txn.FinalizeCommit]

/-- Closed instance of `finalize_commit_apply_correct` for a
transaction with no commit MVCC op (bootstrap replay). -/
theorem finalize_commit_apply_correct_witness :
    (ParticipantOpState.PerformOp
      { txn_id := 1, op_type := ParticipantOpType.FINALIZE_COMMIT,
        finalized_commit_timestamp := 105 }
      { commit_op := none, log := [] } ⟨5, 9⟩).1 = Status.ok ∧
    (ParticipantOpState.PerformOp
      { txn_id := 1, op_type := ParticipantOpType.FINALIZE_COMMIT,
        finalized_commit_timestamp := 105 }
      { commit_op := none, log := [] } ⟨5, 9⟩).2.1.log =
      [TxnEvent.finalizedCommit ⟨5, 9⟩ 105] ∧
    (ParticipantOp.Apply
      { txn_id := 1, op_type := ParticipantOpType.FINALIZE_COMMIT,
        finalized_commit_timestamp := 105 }
      { commit_op := none, log := [] } ⟨5, 9⟩ none).2.2.1 =
      [MvccAction.startApplying] :=
  have h := finalize_commit_apply_correct
    { txn_id := 1, op_type := ParticipantOpType.FINALIZE_COMMIT,
      finalized_commit_timestamp := 105 }
    { commit_op := none, log := [] } ⟨5, 9⟩ none rfl
  ⟨h.1, h.2.1, h.2.2.2.2.2 rfl⟩

theorem OpIdCompare_neg_le_iff (a b : OpId) :
    (¬ OpIdCompare a b ≤ 0) ↔ OpIdCompare b a < 0 := by
  rw [OpIdCompare_le_iff, OpIdCompare_lt_iff]
  omega

/-- On a key-sorted list, `dropWhile (key ≤ lo)` is `upper_bound(lo)`:
it removes exactly the entries with key ≤ lo. -/
theorem dropWhile_le_eq_filter (lo : OpId) (l : List (OpId × ConsensusRound))
    (hs : PendingSorted l) :
    l.dropWhile (fun e => OpIdCompare e.1 lo ≤ 0) =
      l.filter (fun e => ¬ OpIdCompare e.1 lo ≤ 0) := by
  induction l with
  | nil => rfl
  | cons e rest ih =>
    rw [PendingSorted, List.pairwise_cons] at hs
    by_cases hle : OpIdCompare e.1 lo ≤ 0
    · rw [List.dropWhile_cons, List.filter_cons, if_pos (by simpa using hle),
        if_neg (by simp [hle])]
      exact ih hs.2
    · have hall : ∀ x ∈ rest, ¬ OpIdCompare x.1 lo ≤ 0 := by
        intro x hx hxle
        exact hle (Int.le_of_lt (OpIdCompare_lt_of_lt_of_le (hs.1 x hx) hxle))
      rw [List.dropWhile_cons, List.filter_cons, if_neg (by simpa using hle),
        if_pos (by simpa using hle),
        List.filter_eq_self.mpr (fun a ha => by simpa using hall a ha)]

/-- On a key-sorted list, `takeWhile (key ≤ hi)` keeps exactly the
entries with key ≤ hi. -/
theorem takeWhile_le_eq_filter (hi : OpId) (l : List (OpId × ConsensusRound))
    (hs : PendingSorted l) :
    l.takeWhile (fun e => OpIdCompare e.1 hi ≤ 0) =
      l.filter (fun e => OpIdCompare e.1 hi ≤ 0) := by
  induction l with
  | nil => rfl
  | cons e rest ih =>
    rw [PendingSorted, List.pairwise_cons] at hs
    by_cases hle : OpIdCompare e.1 hi ≤ 0
    · rw [List.takeWhile_cons, List.filter_cons, if_pos (by simpa using hle),
        if_pos (by simpa using hle), ih hs.2]
    · have hall : ∀ x ∈ rest, ¬ OpIdCompare x.1 hi ≤ 0 := by
        intro x hx hxle
        exact hle (Int.le_of_lt (OpIdCompare_lt_of_lt_of_le (hs.1 x hx) hxle))
      rw [List.takeWhile_cons, List.filter_cons, if_neg (by simpa using hle),
        if_neg (by simpa using hle),
        List.filter_eq_nil_iff.mpr (fun a ha => by simpa using hall a ha)]

/-- On a key-sorted pending map, the `upper_bound` iterator range
`(lo, hi]` is exactly the filter of entries with lo < key ≤ hi. -/
theorem upperBoundRange_eq_filter (l : List (OpId × ConsensusRound))
    (lo hi : OpId) (hs : PendingSorted l) :
    upperBoundRange l lo hi =
      l.filter (fun e =>
        OpIdCompare lo e.1 < 0 ∧ OpIdCompare e.1 hi ≤ 0) := by
  unfold upperBoundRange
  rw [dropWhile_le_eq_filter lo l hs]
  have hs2 : PendingSorted (l.filter (fun e => ¬ OpIdCompare e.1 lo ≤ 0)) :=
    List.Pairwise.sublist (List.filter_sublist l) hs
  rw [takeWhile_le_eq_filter hi _ hs2, List.filter_filter]
  apply List.filter_congr
  intro a ha
  by_cases h2 : OpIdCompare a.1 hi ≤ 0 <;>
    by_cases h1 : OpIdCompare a.1 lo ≤ 0 <;>
      simp [h1, h2, ← OpIdCompare_neg_le_iff]

/-- Normal form of the per-round loop body. -/
theorem markCommitStep_eq (rs : ReplicaState) (r : ConsensusRound) :
    markCommitStep rs r = (roundStepStatus r,
      { rs with
          in_flight_commits := (rs.in_flight_commits ++ [r.id])
          events := (rs.events ++ [roundEvent r]) }) := by
  unfold markCommitStep roundStepStatus roundEvent
  by_cases h : r.hasCommitContinuation <;> simp [h]

/-- The commit-advance loop when every round's continuation (or pool
submission) succeeds: all ids are inserted and all events emitted, in
list order. -/
theorem markCommitLoop_ok (l : List (OpId × ConsensusRound))
    (rs : ReplicaState)
    (h : ∀ e ∈ l, roundStepStatus e.2 = Status.ok) :
    markCommitLoop rs l = (Status.ok,
      { rs with
          in_flight_commits := (rs.in_flight_commits ++
            l.map (fun e => e.2.id))
          events := (rs.events ++ l.map (fun e => roundEvent e.2)) }) := by
  induction l generalizing rs with
  | nil => simp [markCommitLoop]
  | cons e rest ih =>
    have he := h e (by simp)
    simp only [markCommitLoop, markCommitStep_eq, he, if_true]
    rw [ih _ (fun x hx => h x (by simp [hx]))]
    simp

/-- The commit-advance loop when the rounds before `r` succeed and
`r` fails: the loop stops at `r` with its error, having inserted the
ids up to and including `r` and emitted their events. -/
theorem markCommitLoop_err (pre : List (OpId × ConsensusRound))
    (r : OpId × ConsensusRound) (post : List (OpId × ConsensusRound))
    (rs : ReplicaState)
    (hpre : ∀ e ∈ pre, roundStepStatus e.2 = Status.ok)
    (herr : roundStepStatus r.2 ≠ Status.ok) :
    markCommitLoop rs (pre ++ r :: post) = (roundStepStatus r.2,
      { rs with
          in_flight_commits := (rs.in_flight_commits ++
            pre.map (fun e => e.2.id) ++ [r.2.id])
          events := (rs.events ++
            pre.map (fun e => roundEvent e.2) ++ [roundEvent r.2]) }) := by
  induction pre generalizing rs with
  | nil =>
    simp only [List.nil_append, markCommitLoop, markCommitStep_eq]
    simp [herr]
  | cons e rest ih =>
    have he := hpre e (by simp)
    simp only [List.cons_append, markCommitLoop, markCommitStep_eq, he, if_true]
    simp only [List.append_eq]
    rw [ih _ (fun x hx => hpre x (by simp [hx]))]
    simp

/-- C1: `mark_consensus_committed_up_to(id)` returns
SERVICE_UNAVAILABLE in SHUTTING_DOWN or SHUT_DOWN; ILLEGAL_STATE in
any other non-RUNNING state; success with no state change when
`id ≤ last_triggered_apply`; otherwise (when every continuation
invocation and pool submission succeeds) every pending op with id in
`(last_triggered_apply, id]` is added to `in_flight_commits` and has
its commit continuation invoked (or a callback runnable submitted when
it has none) in ascending OpId order, and afterwards
`last_triggered_apply = id`. -/
theorem mark_consensus_committed_up_to_correct (rs : ReplicaState) (id : OpId)
    (hsorted : PendingSorted rs.pending_txns)
    (hkeys : ∀ e ∈ rs.pending_txns, e.2.id = e.1) :
    (rs.state = RState.kShuttingDown ∨ rs.state = RState.kShutDown →
      rs.MarkConsensusCommittedUpToUnlocked id =
        (Status.serviceUnavailable, rs)) ∧
    (¬ (rs.state = RState.kShuttingDown ∨ rs.state = RState.kShutDown) →
      rs.state ≠ RState.kRunning →
      rs.MarkConsensusCommittedUpToUnlocked id = (Status.illegalState, rs)) ∧
    (rs.state = RState.kRunning →
      0 ≤ OpIdCompare rs.last_triggered_apply id →
      rs.MarkConsensusCommittedUpToUnlocked id = (Status.ok, rs)) ∧
    (rs.state = RState.kRunning →
      OpIdCompare rs.last_triggered_apply id < 0 →
      (∀ e ∈ rs.pending_txns,
        OpIdCompare rs.last_triggered_apply e.1 < 0 →
        OpIdCompare e.1 id ≤ 0 → roundStepStatus e.2 = Status.ok) →
      rs.MarkConsensusCommittedUpToUnlocked id = (Status.ok,
        { rs with
            last_triggered_apply := id
            in_flight_commits := (rs.in_flight_commits ++
              (rs.pending_txns.filter (fun e =>
                OpIdCompare rs.last_triggered_apply e.1 < 0 ∧
                  OpIdCompare e.1 id ≤ 0)).map Prod.fst)
            events := (rs.events ++
              (rs.pending_txns.filter (fun e =>
                OpIdCompare rs.last_triggered_apply e.1 < 0 ∧
                  OpIdCompare e.1 id ≤ 0)).map (fun e => roundEvent e.2)) })) := by
  refine ⟨?_, ?_, ?_, ?_⟩
  · intro h
    unfold ReplicaState.MarkConsensusCommittedUpToUnlocked
    rw [if_pos h]
  · intro h1 h2
    unfold ReplicaState.MarkConsensusCommittedUpToUnlocked
    rw [if_neg h1, if_pos h2]
  · intro hrun hge
    unfold ReplicaState.MarkConsensusCommittedUpToUnlocked
    rw [if_neg (by simp [hrun]), if_neg (by simp [hrun]), if_pos hge]
  · intro hrun hlt hok
    have hfilter_ok : ∀ e ∈ rs.pending_txns.filter (fun e =>
        OpIdCompare rs.last_triggered_apply e.1 < 0 ∧
          OpIdCompare e.1 id ≤ 0), roundStepStatus e.2 = Status.ok := by
      intro e he
      rw [List.mem_filter] at he
      have hb := of_decide_eq_true he.2
      exact hok e he.1 hb.1 hb.2
    have hmap : (rs.pending_txns.filter (fun e =>
        OpIdCompare rs.last_triggered_apply e.1 < 0 ∧
          OpIdCompare e.1 id ≤ 0)).map (fun e => e.2.id) =
        (rs.pending_txns.filter (fun e =>
        OpIdCompare rs.last_triggered_apply e.1 < 0 ∧
          OpIdCompare e.1 id ≤ 0)).map Prod.fst :=
      List.map_congr_left (fun e he => hkeys e (List.mem_filter.mp he).1)
    unfold ReplicaState.MarkConsensusCommittedUpToUnlocked
    rw [if_neg (by simp [hrun]), if_neg (by simp [hrun]),
      if_neg (Int.not_le.mpr hlt)]
    rw [upperBoundRange_eq_filter _ _ _ hsorted]
    simp only [markCommitLoop_ok _ _ hfilter_ok]
    simp [hmap]
    intro a b hab h1 h2
    exact hkeys (a, b) hab

/-- Closed instance of `mark_consensus_committed_up_to_correct` at the
sample pending state, advancing the watermark from (5,9) to (5,11). -/
theorem mark_consensus_committed_up_to_correct_witness :
    samplePendingState.MarkConsensusCommittedUpToUnlocked ⟨5, 11⟩ =
      (Status.ok,
      { samplePendingState with
          last_triggered_apply := ⟨5, 11⟩
          in_flight_commits := (samplePendingState.in_flight_commits ++
            (samplePendingState.pending_txns.filter (fun e =>
              OpIdCompare samplePendingState.last_triggered_apply e.1 < 0 ∧
                OpIdCompare e.1 ⟨5, 11⟩ ≤ 0)).map Prod.fst)
          events := (samplePendingState.events ++
            (samplePendingState.pending_txns.filter (fun e =>
              OpIdCompare samplePendingState.last_triggered_apply e.1 < 0 ∧
                OpIdCompare e.1 ⟨5, 11⟩ ≤ 0)).map
              (fun e => roundEvent e.2)) }) :=
  (mark_consensus_committed_up_to_correct samplePendingState ⟨5, 11⟩
    (by decide) (by decide)).2.2.2 (by decide) (by decide) (by decide)

/-- C10: with the replica RUNNING and a target id above the watermark,
if the eligible range decomposes as `pre ++ r :: post` with every
round of `pre` succeeding and `r` failing, the call returns the error
of `r` while every eligible op up to and including `r` has been
inserted into `in_flight_commits`, and `last_triggered_apply` keeps
its prior value (it is not advanced to id). -/
theorem mark_consensus_committed_midway_error (rs : ReplicaState) (id : OpId)
    (pre post : List (OpId × ConsensusRound)) (r : OpId × ConsensusRound)
    (hrun : rs.state = RState.kRunning)
    (hlt : OpIdCompare rs.last_triggered_apply id < 0)
    (hrange : upperBoundRange rs.pending_txns rs.last_triggered_apply id =
      pre ++ r :: post)
    (hpre : ∀ e ∈ pre, roundStepStatus e.2 = Status.ok)
    (herr : roundStepStatus r.2 ≠ Status.ok) :
    rs.MarkConsensusCommittedUpToUnlocked id = (roundStepStatus r.2,
      { rs with
          in_flight_commits := (rs.in_flight_commits ++
            pre.map (fun e => e.2.id) ++ [r.2.id])
          events := (rs.events ++
            pre.map (fun e => roundEvent e.2) ++ [roundEvent r.2]) }) ∧
    (rs.MarkConsensusCommittedUpToUnlocked id).2.last_triggered_apply =
      rs.last_triggered_apply := by
  have hmain : rs.MarkConsensusCommittedUpToUnlocked id = (roundStepStatus r.2,
      { rs with
          in_flight_commits := (rs.in_flight_commits ++
            pre.map (fun e => e.2.id) ++ [r.2.id])
          events := (rs.events ++
            pre.map (fun e => roundEvent e.2) ++ [roundEvent r.2]) }) := by
    unfold ReplicaState.MarkConsensusCommittedUpToUnlocked
    rw [if_neg (by simp [hrun]), if_neg (by simp [hrun]),
      if_neg (Int.not_le.mpr hlt)]
    rw [hrange]
    simp only [markCommitLoop_err pre r post rs hpre herr]
    simp [herr]
  exact ⟨hmain, by rw [hmain]⟩

/-- Closed instance of `mark_consensus_committed_midway_error`: one
eligible round whose continuation fails with an I/O error. -/
theorem mark_consensus_committed_midway_error_witness :
    (sampleFailState.MarkConsensusCommittedUpToUnlocked ⟨5, 10⟩).1 =
      Status.ioError ∧
    (sampleFailState.MarkConsensusCommittedUpToUnlocked
      ⟨5, 10⟩).2.last_triggered_apply = sampleFailState.last_triggered_apply ∧
    (⟨5, 10⟩ : OpId) ∈
      (sampleFailState.MarkConsensusCommittedUpToUnlocked
        ⟨5, 10⟩).2.in_flight_commits := by
  have h := mark_consensus_committed_midway_error sampleFailState ⟨5, 10⟩
    [] [] (⟨5, 10⟩, ConsensusRound.mk ⟨5, 10⟩ OperationType.WRITE_OP true
      Status.ioError Status.ok)
    (by decide) (by decide) (by decide) (by decide) (by decide)
  refine ⟨?_, h.2, ?_⟩
  · rw [h.1]
    rfl
  · rw [h.1]
    decide

end Kudu
